import Mathlib

/-!
Verification of the cluster-shift logistic-regression experiment script
(`logistic_regression.py`).

The script is embedded shallowly over the rationals.  Library effects that
the script only consumes through a fixed interface are abstracted into
oracle parameters:

* `NpRandom` models the global NumPy random state: `seed` resets the state,
  `mvn` draws `n` samples from a bivariate normal with the given mean and
  covariance, advancing the state.
* `Oracles` additionally carries the logistic-regression fitter, the
  predicted-probability function of a fitted model, the log-loss function,
  and the matplotlib contour machinery (`contourf` produces an abstract
  contour-set value; `get_paths` extracts its polygon paths and may fail,
  modelling a raised exception).

Squared distances: the script compares and minimises Euclidean distances
(`scipy.spatial.distance.cdist` followed by `np.min`).  Since the minimum of
Euclidean distances is the square root of the minimum of squared distances
(sqrt is monotone on nonnegatives) and square roots of rationals are not
representable computably, the embedding records the squared minimum; the
Euclidean statements are recovered through `Real.sqrt` in the theorems.
-/

/-- A 2-D sample point. -/
abbrev Point : Type := ℚ × ℚ

/-- A contour path: the list of its polygon vertices. -/
abbrev CPath : Type := List Point

/-- The 200 x 200 probability values, stored row by row. -/
abbrev Grid : Type := List (List ℚ)

/-- A 2 x 2 covariance matrix. -/
structure Cov2 where
  xx : ℚ
  xy : ℚ
  yx : ℚ
  yy : ℚ
deriving DecidableEq, Repr

/-- The NumPy global random state, abstracted: `seed k` models
`np.random.seed(k)`; `mvn s mean cov n` models
`np.random.multivariate_normal(mean, cov, size=n)` run in state `s`,
returning the samples and the advanced state. -/
structure NpRandom (S : Type) where
  seed : Nat → S
  mvn : S → Point → Cov2 → Nat → List Point × S

/-- The covariance matrix built at the top of `generate_ellipsoid_clusters`:
`[[cluster_std, cluster_std*0.8], [cluster_std*0.8, cluster_std]]`. -/
def covariance_matrix (cluster_std : ℚ) : Cov2 :=
  ⟨cluster_std, cluster_std * (0.8 : ℚ), cluster_std * (0.8 : ℚ), cluster_std⟩

/-- Embedding of `generate_ellipsoid_clusters(distance, n_samples, cluster_std)`.
It reseeds the global random state with seed 0, draws the class-0 cluster at
mean (1,1), draws the class-1 cluster at mean (1,1) and shifts it by
`(distance, distance)`, and returns the stacked points, the labels
(`n_samples` zeros then `n_samples` ones) and the final random state. -/
def generate_ellipsoid_clusters (S : Type) (np : NpRandom S) (_rng : S)
    (distance : ℚ) (n_samples : Nat) (cluster_std : ℚ) :
    (List Point × List ℚ) × S :=
  let rng0 := np.seed 0
  let cov := covariance_matrix cluster_std
  let draw1 := np.mvn rng0 (1, 1) cov n_samples
  let X1 := draw1.1
  let y1 := List.replicate n_samples (0 : ℚ)
  let draw2 := np.mvn draw1.2 (1, 1) cov n_samples
  let X2 := draw2.1.map (fun p => (p.1 + distance, p.2 + distance))
  let y2 := List.replicate n_samples (1 : ℚ)
  ((X1 ++ X2, y1 ++ y2), draw2.2)

/-- Minimum of a nonempty list of rationals, `np.min` style; `none` models the
exception `np.min` raises on an empty array. -/
def listMinQ : List ℚ → Option ℚ
  | [] => none
  | x :: xs => some (xs.foldl min x)

/-- Maximum of a nonempty list of rationals, `np.max` style. -/
def listMaxQ : List ℚ → Option ℚ
  | [] => none
  | x :: xs => some (xs.foldl max x)

theorem foldl_min_spec (xs : List ℚ) : ∀ x : ℚ,
    xs.foldl min x ∈ x :: xs ∧ xs.foldl min x ≤ x ∧ ∀ y ∈ xs, xs.foldl min x ≤ y := by
  induction xs with
  | nil => intro x; simp
  | cons y ys ih =>
    intro x
    obtain ⟨hmem, hle, hall⟩ := ih (min x y)
    have hfold : (y :: ys).foldl min x = ys.foldl min (min x y) := rfl
    rw [hfold]
    refine ⟨?_, le_trans hle (min_le_left x y), ?_⟩
    · rcases List.mem_cons.mp hmem with h1 | h1
      · rcases min_choice x y with hc | hc
        · exact List.mem_cons.mpr (Or.inl (h1.trans hc))
        · exact List.mem_cons.mpr (Or.inr (List.mem_cons.mpr (Or.inl (h1.trans hc))))
      · exact List.mem_cons.mpr (Or.inr (List.mem_cons.mpr (Or.inr h1)))
    · intro z hz
      rcases List.mem_cons.mp hz with h1 | h1
      · subst h1
        exact le_trans hle (min_le_right x z)
      · exact hall z h1

/-- `listMinQ` returns an element of the list that bounds every element below. -/
theorem listMinQ_isLeast {l : List ℚ} {m : ℚ} (h : listMinQ l = some m) :
    m ∈ l ∧ ∀ y ∈ l, m ≤ y := by
  cases l with
  | nil => simp [listMinQ] at h
  | cons x xs =>
    simp only [listMinQ, Option.some.injEq] at h
    obtain ⟨hmem, hle, hall⟩ := foldl_min_spec xs x
    subst h
    refine ⟨hmem, ?_⟩
    intro y hy
    rcases List.mem_cons.mp hy with h1 | h1
    · exact h1 ▸ hle
    · exact hall y h1

/-- Embedding of `np.linspace(start, stop, num)` with the default
`endpoint=True`: `num` evenly spaced values from `start` to `stop`
inclusive. -/
def linspace (start stop : ℚ) (num : Nat) : List ℚ :=
  if num = 0 then []
  else if num = 1 then [start]
  else (List.range num).map
    (fun (i : Nat) => start + (i : ℚ) * (stop - start) / ((num - 1 : Nat) : ℚ))

theorem linspace_length (start stop : ℚ) (num : Nat) :
    (linspace start stop num).length = num := by
  unfold linspace
  split
  · simp [*]
  · split
    · simp [*]
    · rw [List.length_map, List.length_range]

/-- Squared Euclidean distance between two points. -/
def sqDist (p q : Point) : ℚ := (p.1 - q.1) ^ 2 + (p.2 - q.2) ^ 2

/-- The minimum over all vertex pairs of the squared Euclidean distance:
embeds `np.min(cdist(c1_vertices, c0_vertices))` (squared, see the header
comment).  `none` models the exception raised when a vertex set is empty. -/
def minSqDist (v1 v0 : List Point) : Option ℚ :=
  listMinQ (v1.flatMap (fun p => v0.map (fun q => sqDist p q)))

/-- One value appended to the `margin_widths` list: either `np.nan` or a
computed minimum (stored squared). -/
inductive MarginEntry : Type where
  | nan : MarginEntry
  | val : ℚ → MarginEntry
deriving DecidableEq, Repr

/-- The margin caption rendered on a panel: either the literal string
`"Margin Width: N/A"` or the formatted width (stored squared). -/
inductive MarginCaption : Type where
  | NA : MarginCaption
  | width : ℚ → MarginCaption
deriving DecidableEq, Repr

/-- Python truthiness of the `min_distance` value: `None` and `0.0` are
falsy, every other float is truthy. -/
def pyTruthy : Option ℚ → Bool
  | none => false
  | some v => decide (v ≠ 0)

/-- The caption chosen by
`f"Margin Width: {min_distance:.2f}" if min_distance else "Margin Width: N/A"`. -/
def marginCaption (m : Option ℚ) : MarginCaption :=
  if pyTruthy m then MarginCaption.width (m.getD 0) else MarginCaption.NA

/-- The console message printed by the `except` handler. -/
def marginErrorMsg (distance : ℚ) : String :=
  "Error calculating margin width at distance " ++ toString distance

/-- Output of the level-0.7 margin computation: the value of the local
variable `min_distance`, the entries appended to `margin_widths`, and the
console lines printed. -/
structure MarginOut where
  min_distance : Option ℚ
  entries : List MarginEntry
  printed : List String
deriving DecidableEq, Repr

/-- Embedding of the `try`/`except` body guarded by `level == 0.7`
(source lines 96-109): extract both path lists (either extraction may
raise), and if both are nonempty append the minimum vertex distance,
else append `np.nan`; any exception also appends `np.nan` and prints a
message. -/
def marginBlock : ℚ → Except String (List CPath) → Except String (List CPath) →
    MarginOut
  | distance, Except.ok c1_paths, Except.ok c0_paths =>
    if c1_paths ≠ [] ∧ c0_paths ≠ [] then
      match minSqDist c1_paths.flatten c0_paths.flatten with
      | some m => ⟨some m, [MarginEntry.val m], []⟩
      | none => ⟨none, [MarginEntry.nan], [marginErrorMsg distance]⟩
    else ⟨none, [MarginEntry.nan], []⟩
  | distance, Except.error _, _ => ⟨none, [MarginEntry.nan], [marginErrorMsg distance]⟩
  | distance, _, Except.error _ => ⟨none, [MarginEntry.nan], [marginErrorMsg distance]⟩

/-- The oracle bundle for the library calls the script makes.  `S` is the
NumPy random-state type, `CS` the abstract matplotlib contour-set type. -/
structure Oracles (S CS : Type) where
  np : NpRandom S
  fit : List Point → List ℚ → ℚ × ℚ × ℚ
  proba : ℚ × ℚ × ℚ → Point → ℚ × ℚ
  log_loss : List ℚ → List (ℚ × ℚ) → ℚ
  contourf : List ℚ → List ℚ → Grid → ℚ → ℚ → CS
  get_paths : CS → Except String (List CPath)

/-- The list `contour_levels = [0.7, 0.8, 0.9]`. -/
def contour_levels : List ℚ := [(0.7 : ℚ), (0.8 : ℚ), (0.9 : ℚ)]

/-- Embedding of the loop over `contour_levels` (source lines 91-109): at
each level two filled contours are produced, and only when the level equals
0.7 is the margin computed. -/
def marginLoop (S CS : Type) (O : Oracles S CS) (xs ys : List ℚ) (Z : Grid)
    (distance : ℚ) : MarginOut :=
  contour_levels.foldl
    (fun acc level =>
      let class_1_contour := O.contourf xs ys Z level 1
      let class_0_contour := O.contourf xs ys Z 0 (1 - level)
      if level = (0.7 : ℚ) then
        let blk := marginBlock distance (O.get_paths class_1_contour)
          (O.get_paths class_0_contour)
        ⟨blk.min_distance, acc.entries ++ blk.entries, acc.printed ++ blk.printed⟩
      else acc)
    ⟨none, [], []⟩

/-- Everything one sweep iteration computes for a single shift distance. -/
structure IterOut where
  X : List Point
  y : List ℚ
  beta0 : ℚ
  beta1 : ℚ
  beta2 : ℚ
  slope : ℚ
  intercept : ℚ
  loss : ℚ
  gridXs : List ℚ
  gridYs : List ℚ
  gridZ : Grid
  min_distance : Option ℚ
  entries : List MarginEntry
  printed : List String
  caption : MarginCaption

/-- Embedding of one iteration of the `for i, distance in enumerate(...)`
loop of `do_experiments` (source lines 55-126): generate the dataset, fit,
derive slope and intercept, compute the loss, build the 200 x 200
probability grid over the data bounding box expanded by 1, run the contour
loop, and choose the margin caption. -/
def runIteration (S CS : Type) (O : Oracles S CS) (rng : S) (distance : ℚ) :
    IterOut × S :=
  let gen := generate_ellipsoid_clusters S O.np rng distance 100 (0.5 : ℚ)
  let X := gen.1.1
  let y := gen.1.2
  let fitr := O.fit X y
  let beta0 := fitr.1
  let beta1 := fitr.2.1
  let beta2 := fitr.2.2
  let slope := -beta1 / beta2
  let intercept := -beta0 / beta2
  let loss := O.log_loss y (X.map (fun p => O.proba fitr p))
  let x_min := (listMinQ (X.map Prod.fst)).getD 0 - 1
  let x_max := (listMaxQ (X.map Prod.fst)).getD 0 + 1
  let y_min := (listMinQ (X.map Prod.snd)).getD 0 - 1
  let y_max := (listMaxQ (X.map Prod.snd)).getD 0 + 1
  let xs := linspace x_min x_max 200
  let ys := linspace y_min y_max 200
  let Z := ys.map (fun yv => xs.map (fun xv => (O.proba fitr (xv, yv)).2))
  let mo := marginLoop S CS O xs ys Z distance
  (⟨X, y, beta0, beta1, beta2, slope, intercept, loss, xs, ys, Z,
    mo.min_distance, mo.entries, mo.printed, marginCaption mo.min_distance⟩,
   gen.2)

/-- The sweep: run one iteration per shift distance, threading the NumPy
random state, collecting the per-iteration outputs in order. -/
def sweepOuts (S CS : Type) (O : Oracles S CS) : S → List ℚ → List IterOut × S
  | rng, [] => ([], rng)
  | rng, d :: ds =>
    let step := runIteration S CS O rng d
    let rest := sweepOuts S CS O step.2 ds
    (step.1 :: rest.1, rest.2)

/-- `result_dir = "results"`. -/
def result_dir : String := "results"

/-- `epsilon = 1e-8`, added to the denominator in the aggregate slope plot. -/
def epsilon : ℚ := 1 / 100000000

/-- One entry of `slopes = beta1_array / (beta2_array + epsilon)`:
`none` models the non-finite result NumPy produces when the denominator is
exactly zero (`inf` or `nan`), which the `valid_indices` mask removes. -/
def aggSlope (b1 b2 : ℚ) : Option ℚ :=
  if b2 + epsilon = 0 then none else some (b1 / (b2 + epsilon))

/-- The observable outcome of `do_experiments`: the parallel result
sequences, the console output, the per-panel margin captions, the points of
the aggregate slope subplot, and the image files saved. -/
structure ExperimentResult where
  shift_distances : List ℚ
  beta0_list : List ℚ
  beta1_list : List ℚ
  beta2_list : List ℚ
  slope_list : List ℚ
  intercept_list : List ℚ
  loss_list : List ℚ
  margin_widths : List MarginEntry
  printed : List String
  captions : List MarginCaption
  slope_plot_points : List (ℚ × ℚ)
  saved_files : List String

/-- Embedding of `do_experiments(start, end, step_num)` (source lines
41-197): sweep over `np.linspace(start, end, step_num)`, then save the
panel figure, build the aggregate plots (including the epsilon-guarded
slope subplot with non-finite values excluded) and save the second figure. -/
def do_experiments (S CS : Type) (O : Oracles S CS) (rng : S)
    (start stop : ℚ) (step_num : Nat) : ExperimentResult × S :=
  let shift_distances := linspace start stop step_num
  let sw := sweepOuts S CS O rng shift_distances
  let outs := sw.1
  let beta0_list := outs.map (fun o => o.beta0)
  let beta1_list := outs.map (fun o => o.beta1)
  let beta2_list := outs.map (fun o => o.beta2)
  let slopes := List.zipWith aggSlope beta1_list beta2_list
  let slope_plot_points :=
    (shift_distances.zip slopes).filterMap
      (fun ds => ds.2.map (fun s => (ds.1, s)))
  (⟨shift_distances, beta0_list, beta1_list, beta2_list,
    outs.map (fun o => o.slope), outs.map (fun o => o.intercept),
    outs.map (fun o => o.loss), outs.flatMap (fun o => o.entries),
    outs.flatMap (fun o => o.printed), outs.map (fun o => o.caption),
    slope_plot_points,
    [result_dir ++ "/dataset.png", result_dir ++ "/parameters_vs_shift_distance.png"]⟩,
   sw.2)

/-- Unfolding the contour-level loop: only the 0.7 iteration contributes,
and it queries the class-1 band `[0.7, 1.0]` and the class-0 band
`[0.0, 0.3]`. -/
theorem marginLoop_eq (S CS : Type) (O : Oracles S CS) (xs ys : List ℚ) (Z : Grid)
    (d : ℚ) :
    marginLoop S CS O xs ys Z d =
      ⟨(marginBlock d (O.get_paths (O.contourf xs ys Z (0.7 : ℚ) 1))
          (O.get_paths (O.contourf xs ys Z 0 (1 - (0.7 : ℚ))))).min_distance,
       (marginBlock d (O.get_paths (O.contourf xs ys Z (0.7 : ℚ) 1))
          (O.get_paths (O.contourf xs ys Z 0 (1 - (0.7 : ℚ))))).entries,
       (marginBlock d (O.get_paths (O.contourf xs ys Z (0.7 : ℚ) 1))
          (O.get_paths (O.contourf xs ys Z 0 (1 - (0.7 : ℚ))))).printed⟩ := by
  simp only [marginLoop, contour_levels, List.foldl]
  norm_num

/-- Every branch of the level-0.7 block appends exactly one entry to
`margin_widths`. -/
theorem marginBlock_entries_length (d : ℚ) (g1 g0 : Except String (List CPath)) :
    (marginBlock d g1 g0).entries.length = 1 := by
  unfold marginBlock
  rcases g1 with e1 | c1 <;> rcases g0 with e0 | c0 <;> simp
  split
  · rcases h : minSqDist c1.flatten c0.flatten with _ | m <;> simp [h]
  · simp

/-- The block records a numeric margin exactly on the success branch. -/
theorem marginBlock_val_of_min_distance (d : ℚ) (g1 g0 : Except String (List CPath))
    {m : ℚ} (h : (marginBlock d g1 g0).min_distance = some m) :
    (marginBlock d g1 g0).entries = [MarginEntry.val m] := by
  unfold marginBlock at h ⊢
  rcases g1 with e1 | c1 <;> rcases g0 with e0 | c0 <;> simp_all
  split at h
  · rcases hm : minSqDist c1.flatten c0.flatten with _ | m0 <;> rw [hm] at h <;> simp_all
  · simp_all

/-- The per-iteration margin entries come from the contour loop. -/
theorem runIteration_entries (S CS : Type) (O : Oracles S CS) (rng : S) (d : ℚ) :
    (runIteration S CS O rng d).1.entries =
      (marginLoop S CS O (runIteration S CS O rng d).1.gridXs
        (runIteration S CS O rng d).1.gridYs
        (runIteration S CS O rng d).1.gridZ d).entries := rfl

/-- Each iteration appends exactly one margin entry. -/
theorem runIteration_entries_length (S CS : Type) (O : Oracles S CS) (rng : S)
    (d : ℚ) : ((runIteration S CS O rng d).1.entries).length = 1 := by
  rw [runIteration_entries, marginLoop_eq]
  exact marginBlock_entries_length d _ _

/-- The sweep produces one iteration output per distance and one margin
entry per distance. -/
theorem sweepOuts_length (S CS : Type) (O : Oracles S CS) (rng : S) (ds : List ℚ) :
    (sweepOuts S CS O rng ds).1.length = ds.length ∧
    ((sweepOuts S CS O rng ds).1.flatMap (fun o => o.entries)).length = ds.length := by
  induction ds generalizing rng with
  | nil => simp [sweepOuts]
  | cons d ds ih =>
    obtain ⟨ih1, ih2⟩ := ih (runIteration S CS O rng d).2
    simp only [sweepOuts, List.length_cons, List.flatMap_cons, List.length_append]
    constructor
    · rw [ih1]
    · rw [runIteration_entries_length, ih2]
      omega

/-- A concrete NumPy-random oracle used to instantiate the universally
quantified theorems: the state counts the draws made, and `mvn` returns the
mean `n` times. -/
def testNp : NpRandom Nat :=
  ⟨fun k => k, fun s m _ n => (List.replicate n m, s + n)⟩

/-- A concrete oracle bundle whose contour extraction returns a single
one-vertex path for every query. -/
def testOracles : Oracles Nat Unit where
  np := testNp
  fit := fun _ _ => (1, 2, 1)
  proba := fun _ _ => ((1 : ℚ) / 2, (1 : ℚ) / 2)
  log_loss := fun _ _ => 0
  contourf := fun _ _ _ _ _ => ()
  get_paths := fun _ => Except.ok [[((0 : ℚ), (0 : ℚ))]]

/-- A concrete oracle bundle whose contour extraction always returns an
empty path list (the no-geometry case). -/
def emptyPathOracles : Oracles Nat Unit where
  np := testNp
  fit := fun _ _ => (1, 2, 1)
  proba := fun _ _ => ((1 : ℚ) / 2, (1 : ℚ) / 2)
  log_loss := fun _ _ => 0
  contourf := fun _ _ _ _ _ => ()
  get_paths := fun _ => Except.ok []

/-- C3: calling the cluster generator twice with identical arguments yields
identical datasets, whatever the ambient random state, because the seed is
reset to 0 at the start of every call. -/
theorem generate_ellipsoid_clusters_deterministic (S : Type) (np : NpRandom S)
    (s1 s2 : S) (distance : ℚ) (n_samples : Nat) (cluster_std : ℚ) :
    (generate_ellipsoid_clusters S np s1 distance n_samples cluster_std).1 =
      (generate_ellipsoid_clusters S np s2 distance n_samples cluster_std).1 := rfl

/-- C4: for every distance and sample count the generator returns exactly
`2 * n_samples` points, and the label vector is exactly `n_samples` zeros
followed by `n_samples` ones. -/
theorem generate_label_balance (S : Type) (np : NpRandom S) (rng : S)
    (distance cluster_std : ℚ) (n_samples : Nat)
    (h : ∀ s m c k, ((np.mvn s m c k).1).length = k) :
    ((generate_ellipsoid_clusters S np rng distance n_samples cluster_std).1.1).length
        = 2 * n_samples ∧
    (generate_ellipsoid_clusters S np rng distance n_samples cluster_std).1.2 =
      List.replicate n_samples (0 : ℚ) ++ List.replicate n_samples (1 : ℚ) := by
  refine ⟨?_, rfl⟩
  show ((np.mvn (np.seed 0) (1, 1) (covariance_matrix cluster_std) n_samples).1 ++
      ((np.mvn (np.mvn (np.seed 0) (1, 1) (covariance_matrix cluster_std) n_samples).2
          (1, 1) (covariance_matrix cluster_std) n_samples).1.map
        (fun p => (p.1 + distance, p.2 + distance)))).length = 2 * n_samples
  rw [List.length_append, List.length_map, h, h]
  omega

theorem generate_label_balance_witness :
    ((generate_ellipsoid_clusters Nat testNp 7 1 3 (0.5 : ℚ)).1.1).length = 2 * 3 ∧
    (generate_ellipsoid_clusters Nat testNp 7 1 3 (0.5 : ℚ)).1.2 =
      List.replicate 3 (0 : ℚ) ++ List.replicate 3 (1 : ℚ) :=
  generate_label_balance Nat testNp 7 1 (0.5 : ℚ) 3
    (fun _ _ _ _ => by simp [testNp])

/-- C5: both clusters are drawn with the same covariance matrix, whose
diagonal entries equal the spread and whose off-diagonal entries equal 0.8
times the spread; cluster 0 is a draw centered at (1,1), and cluster 1 is a
draw centered at (1,1) translated by exactly (distance, distance). -/
theorem generate_covariance_and_centers (S : Type) (np : NpRandom S) (rng : S)
    (distance cluster_std : ℚ) (n_samples : Nat) :
    covariance_matrix cluster_std =
      ⟨cluster_std, (4 / 5) * cluster_std, (4 / 5) * cluster_std, cluster_std⟩ ∧
    (generate_ellipsoid_clusters S np rng distance n_samples cluster_std).1.1 =
      (np.mvn (np.seed 0) (1, 1) (covariance_matrix cluster_std) n_samples).1 ++
        ((np.mvn (np.mvn (np.seed 0) (1, 1) (covariance_matrix cluster_std) n_samples).2
            (1, 1) (covariance_matrix cluster_std) n_samples).1.map
          (fun p => (p.1 + distance, p.2 + distance))) := by
  refine ⟨?_, rfl⟩
  simp only [covariance_matrix, Cov2.mk.injEq]
  norm_num
  ring

/-- The linear decision function displayed on each panel:
`beta0 + beta1 * x1 + beta2 * x2`. -/
def decision_value (beta0 beta1 beta2 x1 x2 : ℚ) : ℚ :=
  beta0 + beta1 * x1 + beta2 * x2

/-- `slope = -beta1 / beta2` (source line 63). -/
def boundary_slope (beta1 beta2 : ℚ) : ℚ := -beta1 / beta2

/-- `intercept = -beta0 / beta2` (source line 64). -/
def boundary_intercept (beta0 beta2 : ℚ) : ℚ := -beta0 / beta2

/-- C6: the slope and intercept recorded by each iteration are the derived
ones, and whenever `beta2` is nonzero, every point on the derived boundary
line makes the linear decision function exactly zero. -/
theorem boundary_line_consistency (S CS : Type) (O : Oracles S CS) (rng : S)
    (d : ℚ) (beta0 beta1 beta2 x : ℚ) (h : beta2 ≠ 0) :
    (runIteration S CS O rng d).1.slope =
      boundary_slope (runIteration S CS O rng d).1.beta1
        (runIteration S CS O rng d).1.beta2 ∧
    (runIteration S CS O rng d).1.intercept =
      boundary_intercept (runIteration S CS O rng d).1.beta0
        (runIteration S CS O rng d).1.beta2 ∧
    decision_value beta0 beta1 beta2 x
      (boundary_slope beta1 beta2 * x + boundary_intercept beta0 beta2) = 0 := by
  refine ⟨rfl, rfl, ?_⟩
  unfold decision_value boundary_slope boundary_intercept
  field_simp
  ring

theorem boundary_line_consistency_witness :
    (runIteration Nat Unit testOracles 0 1).1.slope =
      boundary_slope (runIteration Nat Unit testOracles 0 1).1.beta1
        (runIteration Nat Unit testOracles 0 1).1.beta2 ∧
    (runIteration Nat Unit testOracles 0 1).1.intercept =
      boundary_intercept (runIteration Nat Unit testOracles 0 1).1.beta0
        (runIteration Nat Unit testOracles 0 1).1.beta2 ∧
    decision_value 1 2 1 3 (boundary_slope 2 1 * 3 + boundary_intercept 1 1) = 0 :=
  boundary_line_consistency Nat Unit testOracles 0 1 1 2 1 3 (by norm_num)

/-- C9: with the seed reset on every call, sweeping the distance leaves the
class-0 points unchanged, translates every class-1 point by exactly
(d - d_1, d - d_1), and leaves the labels unchanged. -/
theorem append_map_shift (X1 raw : List Point) (n : Nat) (hn : X1.length = n)
    (d d1 : ℚ) :
    (X1 ++ raw.map (fun p => (p.1 + d, p.2 + d))).take n =
      (X1 ++ raw.map (fun p => (p.1 + d1, p.2 + d1))).take n ∧
    (X1 ++ raw.map (fun p => (p.1 + d, p.2 + d))).drop n =
      ((X1 ++ raw.map (fun p => (p.1 + d1, p.2 + d1))).drop n).map
        (fun p => (p.1 + (d - d1), p.2 + (d - d1))) := by
  subst hn
  rw [List.take_left, List.take_left, List.drop_left, List.drop_left, List.map_map]
  refine ⟨rfl, List.map_congr_left ?_⟩
  intro p _
  simp only [Function.comp_apply, Prod.mk.injEq]
  constructor <;> ring

/-- C9: with the seed reset on every call, sweeping the distance leaves the
class-0 points unchanged, translates every class-1 point by exactly
(d - d_1, d - d_1), and leaves the labels unchanged. -/
theorem generate_shift_translation (S : Type) (np : NpRandom S) (s1 s2 : S)
    (d d1 cluster_std : ℚ) (n_samples : Nat)
    (h : ∀ s m c k, ((np.mvn s m c k).1).length = k) :
    ((generate_ellipsoid_clusters S np s1 d n_samples cluster_std).1.1).take n_samples =
      ((generate_ellipsoid_clusters S np s2 d1 n_samples cluster_std).1.1).take n_samples ∧
    ((generate_ellipsoid_clusters S np s1 d n_samples cluster_std).1.1).drop n_samples =
      (((generate_ellipsoid_clusters S np s2 d1 n_samples cluster_std).1.1).drop
          n_samples).map (fun p => (p.1 + (d - d1), p.2 + (d - d1))) ∧
    (generate_ellipsoid_clusters S np s1 d n_samples cluster_std).1.2 =
      (generate_ellipsoid_clusters S np s2 d1 n_samples cluster_std).1.2 := by
  have key := append_map_shift
    ((np.mvn (np.seed 0) (1, 1) (covariance_matrix cluster_std) n_samples).1)
    ((np.mvn (np.mvn (np.seed 0) (1, 1) (covariance_matrix cluster_std) n_samples).2
        (1, 1) (covariance_matrix cluster_std) n_samples).1)
    n_samples (h _ _ _ _) d d1
  exact ⟨key.1, key.2, rfl⟩

theorem generate_shift_translation_witness :
    ((generate_ellipsoid_clusters Nat testNp 3 1 2 1).1.1).take 2 =
      ((generate_ellipsoid_clusters Nat testNp 9 0 2 1).1.1).take 2 ∧
    ((generate_ellipsoid_clusters Nat testNp 3 1 2 1).1.1).drop 2 =
      (((generate_ellipsoid_clusters Nat testNp 9 0 2 1).1.1).drop 2).map
        (fun p => (p.1 + ((1 : ℚ) - 0), p.2 + ((1 : ℚ) - 0))) ∧
    (generate_ellipsoid_clusters Nat testNp 3 1 2 1).1.2 =
      (generate_ellipsoid_clusters Nat testNp 9 0 2 1).1.2 :=
  generate_shift_translation Nat testNp 3 9 1 0 1 2 (fun _ _ _ _ => by simp [testNp])

/-- C1: the sweep iterates over exactly `step_num` evenly spaced distances
between `start` and `stop` inclusive, appends exactly one entry per distance
to each of the seven parallel result sequences, and saves exactly two image
files to the results directory; with start = 0.25, stop = 2.0 and
step_num = 8 the distances are 0.25, 0.5, 0.75, 1.0, 1.25, 1.5, 1.75, 2.0. -/
theorem do_experiments_sweep_shape (S CS : Type) (O : Oracles S CS) (rng : S)
    (start stop : ℚ) (step_num : Nat) :
    (do_experiments S CS O rng start stop step_num).1.shift_distances =
        linspace start stop step_num ∧
    ((do_experiments S CS O rng start stop step_num).1.shift_distances).length = step_num ∧
    ((do_experiments S CS O rng start stop step_num).1.beta0_list).length = step_num ∧
    ((do_experiments S CS O rng start stop step_num).1.beta1_list).length = step_num ∧
    ((do_experiments S CS O rng start stop step_num).1.beta2_list).length = step_num ∧
    ((do_experiments S CS O rng start stop step_num).1.slope_list).length = step_num ∧
    ((do_experiments S CS O rng start stop step_num).1.intercept_list).length = step_num ∧
    ((do_experiments S CS O rng start stop step_num).1.loss_list).length = step_num ∧
    ((do_experiments S CS O rng start stop step_num).1.margin_widths).length = step_num ∧
    (do_experiments S CS O rng start stop step_num).1.saved_files =
      [result_dir ++ "/dataset.png",
       result_dir ++ "/parameters_vs_shift_distance.png"] ∧
    ((do_experiments S CS O rng start stop step_num).1.saved_files).length = 2 ∧
    linspace (0.25 : ℚ) 2 8 = [0.25, 0.5, 0.75, 1, 1.25, 1.5, 1.75, 2] := by
  have hsw := sweepOuts_length S CS O rng (linspace start stop step_num)
  have hlen := linspace_length start stop step_num
  refine ⟨rfl, hlen, ?_, ?_, ?_, ?_, ?_, ?_, ?_, rfl, rfl, ?_⟩
  · show (((sweepOuts S CS O rng (linspace start stop step_num)).1.map
        (fun o => o.beta0)).length) = step_num
    rw [List.length_map, hsw.1, hlen]
  · show (((sweepOuts S CS O rng (linspace start stop step_num)).1.map
        (fun o => o.beta1)).length) = step_num
    rw [List.length_map, hsw.1, hlen]
  · show (((sweepOuts S CS O rng (linspace start stop step_num)).1.map
        (fun o => o.beta2)).length) = step_num
    rw [List.length_map, hsw.1, hlen]
  · show (((sweepOuts S CS O rng (linspace start stop step_num)).1.map
        (fun o => o.slope)).length) = step_num
    rw [List.length_map, hsw.1, hlen]
  · show (((sweepOuts S CS O rng (linspace start stop step_num)).1.map
        (fun o => o.intercept)).length) = step_num
    rw [List.length_map, hsw.1, hlen]
  · show (((sweepOuts S CS O rng (linspace start stop step_num)).1.map
        (fun o => o.loss)).length) = step_num
    rw [List.length_map, hsw.1, hlen]
  · show (((sweepOuts S CS O rng (linspace start stop step_num)).1.flatMap
        (fun o => o.entries)).length) = step_num
    rw [hsw.2, hlen]
  · norm_num [linspace, List.range_succ]

/-- The `min_distance` an iteration records comes from the contour loop. -/
theorem runIteration_min_distance (S CS : Type) (O : Oracles S CS) (rng : S) (d : ℚ) :
    (runIteration S CS O rng d).1.min_distance =
      (marginLoop S CS O (runIteration S CS O rng d).1.gridXs
        (runIteration S CS O rng d).1.gridYs
        (runIteration S CS O rng d).1.gridZ d).min_distance := rfl

/-- The caption an iteration records is the truthiness-based caption of its
`min_distance`. -/
theorem runIteration_caption (S CS : Type) (O : Oracles S CS) (rng : S) (d : ℚ) :
    (runIteration S CS O rng d).1.caption =
      marginCaption (runIteration S CS O rng d).1.min_distance := rfl

theorem flatMap_const_nil {α β : Type} (l : List α) :
    l.flatMap (fun _ => ([] : List β)) = [] := by
  induction l with
  | nil => rfl
  | cons x xs ih => simp [List.flatMap_cons, ih]

theorem minSqDist_some_ne_nil {v1 v0 : List Point} {m : ℚ}
    (h : minSqDist v1 v0 = some m) : v1 ≠ [] ∧ v0 ≠ [] := by
  constructor <;> rintro rfl
  · simp [minSqDist, listMinQ] at h
  · rw [minSqDist] at h
    simp only [List.map_nil] at h
    rw [flatMap_const_nil] at h
    simp [listMinQ] at h

/-- The success branch of the level-0.7 block. -/
theorem marginBlock_ok (d : ℚ) (c1 c0 : List CPath) {m : ℚ}
    (hm : minSqDist c1.flatten c0.flatten = some m) :
    marginBlock d (Except.ok c1) (Except.ok c0) =
      ⟨some m, [MarginEntry.val m], []⟩ := by
  have hne := minSqDist_some_ne_nil hm
  have h1 : c1 ≠ [] := by
    intro hcontra
    exact hne.1 (by simp [hcontra])
  have h0 : c0 ≠ [] := by
    intro hcontra
    exact hne.2 (by simp [hcontra])
  simp only [marginBlock]
  rw [if_pos ⟨h1, h0⟩, hm]

/-- The console lines an iteration prints come from the contour loop. -/
theorem runIteration_printed (S CS : Type) (O : Oracles S CS) (rng : S) (d : ℚ) :
    (runIteration S CS O rng d).1.printed =
      (marginLoop S CS O (runIteration S CS O rng d).1.gridXs
        (runIteration S CS O rng d).1.gridYs
        (runIteration S CS O rng d).1.gridZ d).printed := rfl

/-- The margin specification of one iteration: the appended entry and the
recorded `min_distance` are the least squared vertex distance between the
two extracted 0.7-level regions (hence its square root is the least
Euclidean vertex distance), and the probability grid is the 200 x 200 mesh
over the data bounding box expanded by one unit on each side. -/
def marginSpecAt (S CS : Type) (O : Oracles S CS) (rng : S) (d : ℚ)
    (c1 c0 : List CPath) (m : ℚ) : Prop :=
  (runIteration S CS O rng d).1.entries = [MarginEntry.val m] ∧
  (runIteration S CS O rng d).1.min_distance = some m ∧
  (∃ p ∈ c1.flatten, ∃ q ∈ c0.flatten, m = sqDist p q) ∧
  (∀ p ∈ c1.flatten, ∀ q ∈ c0.flatten, m ≤ sqDist p q) ∧
  (∀ p ∈ c1.flatten, ∀ q ∈ c0.flatten,
    Real.sqrt ((m : ℚ) : ℝ) ≤ Real.sqrt ((sqDist p q : ℚ) : ℝ)) ∧
  (runIteration S CS O rng d).1.gridXs =
    linspace ((listMinQ ((runIteration S CS O rng d).1.X.map Prod.fst)).getD 0 - 1)
      ((listMaxQ ((runIteration S CS O rng d).1.X.map Prod.fst)).getD 0 + 1) 200 ∧
  (runIteration S CS O rng d).1.gridYs =
    linspace ((listMinQ ((runIteration S CS O rng d).1.X.map Prod.snd)).getD 0 - 1)
      ((listMaxQ ((runIteration S CS O rng d).1.X.map Prod.snd)).getD 0 + 1) 200 ∧
  ((runIteration S CS O rng d).1.gridXs).length = 200 ∧
  ((runIteration S CS O rng d).1.gridYs).length = 200 ∧
  (runIteration S CS O rng d).1.gridZ =
    (runIteration S CS O rng d).1.gridYs.map (fun yv =>
      (runIteration S CS O rng d).1.gridXs.map (fun xv =>
        (O.proba (O.fit (runIteration S CS O rng d).1.X
          (runIteration S CS O rng d).1.y) (xv, yv)).2))

/-- C2: whenever the 0.7-level extraction of both class regions succeeds and
the minimum vertex distance exists, the iteration records exactly that
minimum - the least (squared, hence also Euclidean) distance between any
vertex of the class-1 region and any vertex of the class-0 region - and the
probability grid is the uniform 200 x 200 mesh over the bounding box of the
dataset expanded by 1 unit on each side; no other contour level enters the
computation. -/
theorem margin_level07_euclidean (S CS : Type) (O : Oracles S CS) (rng : S)
    (d : ℚ) (c1 c0 : List CPath) (m : ℚ)
    (hc1 : O.get_paths (O.contourf (runIteration S CS O rng d).1.gridXs
        (runIteration S CS O rng d).1.gridYs (runIteration S CS O rng d).1.gridZ
        (0.7 : ℚ) 1) = Except.ok c1)
    (hc0 : O.get_paths (O.contourf (runIteration S CS O rng d).1.gridXs
        (runIteration S CS O rng d).1.gridYs (runIteration S CS O rng d).1.gridZ
        0 (1 - (0.7 : ℚ))) = Except.ok c0)
    (hm : minSqDist c1.flatten c0.flatten = some m) :
    marginSpecAt S CS O rng d c1 c0 m := by
  obtain ⟨hmem, hall⟩ := listMinQ_isLeast
    (l := c1.flatten.flatMap (fun p => c0.flatten.map (fun q => sqDist p q))) hm
  refine ⟨?_, ?_, ?_, ?_, ?_, rfl, rfl, ?_, ?_, rfl⟩
  case refine_6 =>
    show (linspace ((listMinQ ((runIteration S CS O rng d).1.X.map Prod.fst)).getD 0 - 1)
      ((listMaxQ ((runIteration S CS O rng d).1.X.map Prod.fst)).getD 0 + 1) 200).length = 200
    exact linspace_length _ _ _
  case refine_7 =>
    show (linspace ((listMinQ ((runIteration S CS O rng d).1.X.map Prod.snd)).getD 0 - 1)
      ((listMaxQ ((runIteration S CS O rng d).1.X.map Prod.snd)).getD 0 + 1) 200).length = 200
    exact linspace_length _ _ _
  · rw [runIteration_entries, marginLoop_eq, hc1, hc0, marginBlock_ok d c1 c0 hm]
  · rw [runIteration_min_distance, marginLoop_eq, hc1, hc0, marginBlock_ok d c1 c0 hm]
  · obtain ⟨p, hp, hmm⟩ := List.mem_flatMap.mp hmem
    obtain ⟨q, hq, hqq⟩ := List.mem_map.mp hmm
    exact ⟨p, hp, q, hq, hqq.symm⟩
  · intro p hp q hq
    exact hall _ (List.mem_flatMap.mpr ⟨p, hp, List.mem_map.mpr ⟨q, hq, rfl⟩⟩)
  · intro p hp q hq
    have h := hall _ (List.mem_flatMap.mpr ⟨p, hp, List.mem_map.mpr ⟨q, hq, rfl⟩⟩)
    exact Real.sqrt_le_sqrt (by exact_mod_cast h)

theorem margin_level07_euclidean_witness :
    marginSpecAt Nat Unit testOracles 0 1 [[((0 : ℚ), (0 : ℚ))]]
      [[((0 : ℚ), (0 : ℚ))]] 0 :=
  margin_level07_euclidean Nat Unit testOracles 0 1 [[((0 : ℚ), (0 : ℚ))]]
    [[((0 : ℚ), (0 : ℚ))]] 0 rfl rfl (by norm_num [minSqDist, listMinQ, sqDist])

/-- C7 (counterexample): a sweep in which the 0.7-level extraction returns
an empty path list at every distance appends the missing-value sentinel for
every distance yet prints nothing, refuting the claim that a diagnostic
message is printed in this failure case. -/
theorem margin_empty_paths_silent_cex :
    (do_experiments Nat Unit emptyPathOracles 0 0 1 2).1.margin_widths =
      [MarginEntry.nan, MarginEntry.nan] ∧
    (do_experiments Nat Unit emptyPathOracles 0 0 1 2).1.printed = [] := by
  have hblock : ∀ d : ℚ,
      marginBlock d (Except.ok ([] : List CPath)) (Except.ok ([] : List CPath)) =
        ⟨none, [MarginEntry.nan], []⟩ := by
    intro d
    simp [marginBlock]
  have hiter : ∀ (rng : Nat) (d : ℚ),
      (runIteration Nat Unit emptyPathOracles rng d).1.entries = [MarginEntry.nan] ∧
      (runIteration Nat Unit emptyPathOracles rng d).1.printed = [] := by
    intro rng d
    constructor
    · rw [runIteration_entries, marginLoop_eq]
      show (marginBlock d (Except.ok []) (Except.ok [])).entries = _
      rw [hblock]
    · rw [runIteration_printed, marginLoop_eq]
      show (marginBlock d (Except.ok []) (Except.ok [])).printed = _
      rw [hblock]
  have hsweep : ∀ (ds : List ℚ) (rng : Nat),
      ((sweepOuts Nat Unit emptyPathOracles rng ds).1.flatMap (fun o => o.entries)) =
        List.replicate ds.length MarginEntry.nan ∧
      ((sweepOuts Nat Unit emptyPathOracles rng ds).1.flatMap (fun o => o.printed)) = [] := by
    intro ds
    induction ds with
    | nil =>
      intro rng
      simp [sweepOuts]
    | cons d ds ih =>
      intro rng
      obtain ⟨ih1, ih2⟩ := ih (runIteration Nat Unit emptyPathOracles rng d).2
      obtain ⟨h1, h2⟩ := hiter rng d
      simp only [sweepOuts, List.flatMap_cons, h1, h2, ih1, ih2,
        List.length_cons, List.replicate_succ, List.nil_append]
      exact ⟨rfl, trivial⟩
  have hds : linspace 0 1 2 = [0, 1] := by
    norm_num [linspace, List.range_succ]
  constructor
  · show ((sweepOuts Nat Unit emptyPathOracles 0 (linspace 0 1 2)).1.flatMap
        (fun o => o.entries)) = _
    rw [(hsweep (linspace 0 1 2) 0).1, hds]
    rfl
  · show ((sweepOuts Nat Unit emptyPathOracles 0 (linspace 0 1 2)).1.flatMap
        (fun o => o.printed)) = _
    rw [(hsweep (linspace 0 1 2) 0).2]

theorem marginBlock_error_left (d : ℚ) (e : String)
    (g0 : Except String (List CPath)) :
    marginBlock d (Except.error e) g0 =
      ⟨none, [MarginEntry.nan], [marginErrorMsg d]⟩ := by
  cases g0 <;> rfl

theorem marginBlock_error_right (d : ℚ) (g1 : Except String (List CPath))
    (e : String) :
    marginBlock d g1 (Except.error e) =
      ⟨none, [MarginEntry.nan], [marginErrorMsg d]⟩ := by
  cases g1 <;> rfl

/-- C7 (amended): every failure of the level-0.7 extraction records the
missing-value sentinel (never zero, never an abort) and the sweep continues,
one entry per distance; the raised-exception case prints a diagnostic
message, the empty-path-list case records the sentinel silently, and console
output occurs only in failure cases. -/
theorem margin_failure_recovery (d : ℚ) (g1 g0 : Except String (List CPath)) :
    (marginBlock d g1 g0).entries.length = 1 ∧
    ((∃ e, g1 = Except.error e) ∨ (∃ e, g0 = Except.error e) →
      (marginBlock d g1 g0).entries = [MarginEntry.nan] ∧
      (marginBlock d g1 g0).printed = [marginErrorMsg d]) ∧
    (∀ c1 c0, g1 = Except.ok c1 → g0 = Except.ok c0 → (c1 = [] ∨ c0 = []) →
      (marginBlock d g1 g0).entries = [MarginEntry.nan] ∧
      (marginBlock d g1 g0).printed = []) ∧
    ((marginBlock d g1 g0).printed ≠ [] →
      (marginBlock d g1 g0).entries = [MarginEntry.nan]) := by
  refine ⟨marginBlock_entries_length d g1 g0, ?_, ?_, ?_⟩
  · rintro (⟨e, rfl⟩ | ⟨e, rfl⟩)
    · rw [marginBlock_error_left]
      exact ⟨rfl, rfl⟩
    · rw [marginBlock_error_right]
      exact ⟨rfl, rfl⟩
  · rintro c1 c0 rfl rfl hnil
    rcases hnil with rfl | rfl
    · constructor <;> simp [marginBlock]
    · constructor <;> simp [marginBlock]
  · intro hp
    rcases g1 with e1 | c1
    · rw [marginBlock_error_left]
    rcases g0 with e0 | c0
    · rw [marginBlock_error_right]
    by_cases hne : c1 ≠ [] ∧ c0 ≠ []
    · rcases hm : minSqDist c1.flatten c0.flatten with _ | m
      · simp only [marginBlock, if_pos hne, hm]
      · exfalso
        apply hp
        simp only [marginBlock, if_pos hne, hm]
    · exfalso
      apply hp
      simp only [marginBlock, if_neg hne]

theorem margin_failure_recovery_witness :
    (marginBlock 1 (Except.error "no contour") (Except.ok [])).entries =
      [MarginEntry.nan] ∧
    (marginBlock 1 (Except.error "no contour") (Except.ok [])).printed =
      [marginErrorMsg 1] :=
  (margin_failure_recovery 1 (Except.error "no contour") (Except.ok [])).2.1
    (Or.inl ⟨"no contour", rfl⟩)

/-- C8 (counterexample): the slope subplot value at coefficients
(beta1, beta2) = (1, 1) is `1 / (1 + epsilon)`, the positive ratio, not the
derived slope `-1 / (1 + epsilon)` the claim asserts. -/
theorem agg_slope_sign_cex :
    aggSlope 1 1 = some (1 / (1 + epsilon)) ∧
    aggSlope 1 1 ≠ some (-1 / (1 + epsilon)) := by
  constructor
  · norm_num [aggSlope, epsilon]
  · norm_num [aggSlope, epsilon]

/-- C8 (amended): the aggregate slope subplot plots, at each shift distance,
`beta1 / (beta2 + epsilon)` - the plain coefficient ratio with the epsilon
guard, which is the negation of the derived slope `-beta1/beta2`
regularised - and a point is excluded exactly when the guarded denominator
is zero (the non-finite case). -/
theorem slope_subplot_epsilon_guard (S CS : Type) (O : Oracles S CS) (rng : S)
    (start stop : ℚ) (step_num : Nat) :
    (do_experiments S CS O rng start stop step_num).1.slope_plot_points =
      ((linspace start stop step_num).zip
        (List.zipWith aggSlope
          (do_experiments S CS O rng start stop step_num).1.beta1_list
          (do_experiments S CS O rng start stop step_num).1.beta2_list)).filterMap
        (fun ds => ds.2.map (fun s => (ds.1, s))) ∧
    (∀ b1 b2 : ℚ, b2 + epsilon ≠ 0 → aggSlope b1 b2 = some (b1 / (b2 + epsilon))) ∧
    (∀ b1 b2 : ℚ, aggSlope b1 b2 = none ↔ b2 + epsilon = 0) := by
  refine ⟨rfl, ?_, ?_⟩
  · intro b1 b2 h
    simp [aggSlope, h]
  · intro b1 b2
    unfold aggSlope
    split <;> simp_all

/-- C10: the panel caption reads N/A exactly when the recorded
`min_distance` is `None` or exactly zero; in the zero case the numeric value
0 is still appended to the margin-width sequence even though the caption
shows N/A. -/
theorem margin_caption_na_iff_zero (S CS : Type) (O : Oracles S CS) (rng : S)
    (d : ℚ) :
    ((runIteration S CS O rng d).1.caption = MarginCaption.NA ↔
      ((runIteration S CS O rng d).1.min_distance = none ∨
       (runIteration S CS O rng d).1.min_distance = some 0)) ∧
    ((runIteration S CS O rng d).1.min_distance = some 0 →
      (runIteration S CS O rng d).1.entries = [MarginEntry.val 0]) := by
  constructor
  · rw [runIteration_caption]
    rcases hmd : (runIteration S CS O rng d).1.min_distance with _ | v
    · simp [marginCaption, pyTruthy]
    · by_cases hv : v = 0
      · subst hv
        simp [marginCaption, pyTruthy]
      · simp [marginCaption, pyTruthy, hv]
  · intro h0
    rw [runIteration_entries, marginLoop_eq]
    rw [runIteration_min_distance, marginLoop_eq] at h0
    exact marginBlock_val_of_min_distance d _ _ h0

theorem margin_caption_na_iff_zero_witness :
    ((runIteration Nat Unit testOracles 0 1).1.caption = MarginCaption.NA ↔
      ((runIteration Nat Unit testOracles 0 1).1.min_distance = none ∨
       (runIteration Nat Unit testOracles 0 1).1.min_distance = some 0)) ∧
    ((runIteration Nat Unit testOracles 0 1).1.min_distance = some 0 →
      (runIteration Nat Unit testOracles 0 1).1.entries = [MarginEntry.val 0]) :=
  margin_caption_na_iff_zero Nat Unit testOracles 0 1
